import Mathlib

/-!
Verification of the e-book reader application.

This file shallowly embeds the logic of `src/App.tsx` and `src/Sidebar.tsx`
(the latter containing the `Reader` component with the playback controller)
together with the shared data model of `src/unnamed/part_000` (`types.ts`),
and proves or refutes the frozen specification claims about it.
-/

/-- A typed content block of a section, from `types.ts`:
`string | {type:'header'} | {type:'list'} | {type:'quote'; source?} | {type:'footnote'}`. -/
inductive Block where
  | plain (text : String)
  | header (text : String)
  | list (items : List String)
  | quote (text : String) (source : Option String)
  | footnote (text : String)
deriving Repr, DecidableEq

/-- `BookSection` from `types.ts`: id, title and ordered content blocks. -/
structure BookSection where
  id : String
  title : String
  content : List Block
deriving Repr, DecidableEq

/-- `BookChapter` from `types.ts`: id, title and ordered sections. -/
structure BookChapter where
  id : String
  title : String
  sections : List BookSection
deriving Repr, DecidableEq

/-- The text contribution of one content block inside `extractText`
(`Reader`, src/Sidebar.tsx lines 205-222).  A plain string block appends
itself plus `" \n"`; header, list items and quotes append the text plus
`". \n"`; footnote blocks are skipped (the body of their branch is
commented out in the source). -/
def blockText : Block → String
  | .plain s => s ++ " \n"
  | .header t => t ++ ". \n"
  | .list items => String.join (items.map (fun item => item ++ ". \n"))
  | .quote t _ => t ++ ". \n"
  | .footnote _ => ""

/-- `extractText` (`Reader`, src/Sidebar.tsx lines 205-222): starts with
`` `${section.title}. \n\n` `` and folds each content block's contribution
onto the accumulator, in document order. -/
def extractText (s : BookSection) : String :=
  s.content.foldl (fun text b => text ++ blockText b) (s.title ++ ". \n\n")

/-- `toggleBookmark` (src/App.tsx lines 64-72): if the identifier is in the
list, remove every occurrence (`prev.filter(id => id !== sectionId)`),
else append it at the end. -/
def toggleBookmark (prev : List String) (sectionId : String) : List String :=
  if sectionId ∈ prev then prev.filter (fun i => i != sectionId)
  else prev ++ [sectionId]

/-- The visible text nodes each block contributes in the rendered view
(`Reader` JSX, src/Sidebar.tsx lines 425-475): a quote renders its text and,
when present, its source attribution in a `<figcaption>`; a footnote renders
the label `Сноска:` plus its text. -/
def renderBlockTexts : Block → List String
  | .plain s => [s]
  | .header t => [t]
  | .list items => items
  | .quote t source =>
      match source with
      | some src => [t, src]
      | none => [t]
  | .footnote t => ["Сноска:", t]

/-- Erase the optional source attribution from a quote block; other blocks
are unchanged. -/
def eraseBlockSource : Block → Block
  | .quote t _ => .quote t none
  | b => b

/-- Erase the optional source attribution from every quote block of a
section, leaving all narrated text untouched. -/
def eraseQuoteSources (s : BookSection) : BookSection :=
  { s with content := s.content.map eraseBlockSource }

/-- The section from the spec's worked example: title "T", blocks
`["Intro.", {list:["a","b"]}, {footnote:"skip me"}]`. -/
def exampleSection : BookSection :=
  { id := "ex"
    title := "T"
    content := [.plain "Intro.", .list ["a", "b"], .footnote "skip me"] }

/-- `FONT_SIZES` (src/App.tsx line 8): the fixed ordered list of size
classes. -/
def FONT_SIZES : List String :=
  ["prose-sm", "prose-base", "prose-lg", "prose-xl", "prose-2xl"]

/-- The digit-consuming core of JavaScript `parseInt(s, 10)`: read leading
decimal digits; if there are none, the result is NaN (modelled `none`). -/
def jsParseIntDigits (cs : List Char) : Option Nat :=
  let ds := cs.takeWhile Char.isDigit
  if ds.isEmpty then none
  else some (ds.foldl (fun a c => a * 10 + (c.toNat - 48)) 0)

/-- JavaScript `parseInt(s, 10)`: skip leading whitespace, allow an optional
sign, then read leading decimal digits; `none` models the NaN result. -/
def jsParseInt (s : String) : Option Int :=
  let cs := s.toList.dropWhile fun c => c = ' ' || c = '\t' || c = '\n' || c = '\r'
  match cs with
  | '-' :: rest => (jsParseIntDigits rest).map fun n => -(n : Int)
  | '+' :: rest => (jsParseIntDigits rest).map fun n => (n : Int)
  | rest => (jsParseIntDigits rest).map fun n => (n : Int)

/-- The `fontSizeIndex` initializer (src/App.tsx lines 15-22):
`saved !== null ? parseInt(saved, 10) : 2`.  `stored = none` models both an
absent key and a storage read that throws (the `catch` also returns 2);
a `none` result models NaN. -/
def fontSizeIndexInit (stored : Option String) : Option Int :=
  match stored with
  | some saved => jsParseInt saved
  | none => some 2

/-- The `isDarkMode` initializer (src/App.tsx lines 25-32):
`saved === 'true'`; an absent key or a throwing read yields `false`. -/
def isDarkModeInit (stored : Option String) : Bool :=
  match stored with
  | some saved => saved == "true"
  | none => false

/-- The `bookmarks` initializer (src/App.tsx lines 35-42):
`saved ? JSON.parse(saved) : []` inside try/catch.  `parse` abstracts
`JSON.parse` reading a string array; `parse s = none` models a parse
exception, which the `catch` turns into `[]`.  `stored = none` models an
absent key or a throwing read; the empty string is falsy in JavaScript. -/
def bookmarksInit (parse : String → Option (List String))
    (stored : Option String) : List String :=
  match stored with
  | none => []
  | some s => if s = "" then [] else (parse s).getD []

/-- `increaseFont` (src/App.tsx line 130):
`Math.min(prev + 1, FONT_SIZES.length - 1)`. -/
def increaseFont (prev : Int) : Int := min (prev + 1) ((FONT_SIZES.length : Int) - 1)

/-- `decreaseFont` (src/App.tsx line 131): `Math.max(prev - 1, 0)`. -/
def decreaseFont (prev : Int) : Int := max (prev - 1) 0

/-- A user font-size action: the increment or the decrement button. -/
inductive FontOp where
  | inc
  | dec
deriving Repr, DecidableEq

/-- Apply one font-size action to the current level. -/
def applyFontOp (prev : Int) : FontOp → Int
  | .inc => increaseFont prev
  | .dec => decreaseFont prev

/-- Run a sequence of font-size actions from a starting level. -/
def runFontOps (start : Int) (ops : List FontOp) : Int :=
  ops.foldl applyFontOp start

/-- JavaScript `Array.prototype.findIndex`: index of the first element
satisfying `p`, or `-1` when none does. -/
def jsFindIndex {α : Type} (p : α → Bool) : List α → Int
  | [] => -1
  | a :: l =>
      if p a then 0
      else if jsFindIndex p l = -1 then -1 else jsFindIndex p l + 1

/-- The record produced by `activeChapterInfo` (src/App.tsx lines 77-98):
chapter title, index of the active section within the chapter, section
count of the chapter, and the section itself (`none` models the JavaScript
`undefined` of an out-of-range access). -/
structure ChapterInfo where
  title : String
  index : Int
  total : Nat
  sec : Option BookSection
deriving Repr, DecidableEq

/-- The `for`-loop of `activeChapterInfo` (src/App.tsx lines 79-89): the
first chapter whose sections contain the identifier yields its info. -/
def findInChapters : List BookChapter → String → Option ChapterInfo
  | [], _ => none
  | c :: rest, activeSectionId =>
      let index := jsFindIndex (fun s => s.id == activeSectionId) c.sections
      if index ≠ -1 then
        some { title := c.title, index := index, total := c.sections.length,
               sec := c.sections[index.toNat]? }
      else findInChapters rest activeSectionId

/-- `activeChapterInfo` (src/App.tsx lines 77-98): `none` models the `null`
returned for the TOC view; when the identifier is found in no chapter, the
fallback uses the first chapter at index 0.  (With an empty book the
JavaScript fallback would fault on `bookData[0].title`; the app's book data
is never empty, and we return `none` there.) -/
def activeChapterInfo (bookData : List BookChapter) (activeSectionId : String) :
    Option ChapterInfo :=
  if activeSectionId = "TOC" then none
  else
    match findInChapters bookData activeSectionId with
    | some info => some info
    | none =>
        match bookData with
        | [] => none
        | firstChapter :: _ =>
            some { title := firstChapter.title, index := 0,
                   total := firstChapter.sections.length,
                   sec := firstChapter.sections[0]? }

/-- `allSections` (src/App.tsx line 104):
`bookData.flatMap(chapter => chapter.sections)`. -/
def allSections (bookData : List BookChapter) : List BookSection :=
  bookData.flatMap fun chapter => chapter.sections

/-- A navigation target: the `{id, title}` projection of the section objects
(or the table-of-contents sentinel) held in `prevSection`/`nextSection`. -/
structure NavTarget where
  id : String
  title : String
deriving Repr, DecidableEq

/-- `prevSection`/`nextSection` (src/App.tsx lines 103-121).  `none` models
`null`.  In the TOC branch the code reads `allSections[0]`, which would
fault on an empty book; `head?` models it.  For a non-TOC identifier,
`currentIndex` is the JavaScript `findIndex` result (`-1` when absent):
the predecessor is the section before `currentIndex` when `currentIndex >
0`, else the TOC sentinel; the successor is the section after
`currentIndex` when `currentIndex < allSections.length - 1`, else `null`. -/
def prevNextSection (bookData : List BookChapter) (activeSectionId : String) :
    Option NavTarget × Option NavTarget :=
  let all := allSections bookData
  if activeSectionId = "TOC" then
    (none, all.head?.map fun s => { id := s.id, title := s.title })
  else
    let currentIndex := jsFindIndex (fun s => s.id == activeSectionId) all
    ( if currentIndex > 0 then
        (all[(currentIndex - 1).toNat]?).map fun s => { id := s.id, title := s.title }
      else some { id := "TOC", title := "Оглавление" },
      if currentIndex < (all.length : Int) - 1 then
        (all[(currentIndex + 1).toNat]?).map fun s => { id := s.id, title := s.title }
      else none )

/-- A one-chapter, two-section book used as a concrete navigation input. -/
def miniBook : List BookChapter :=
  [ { id := "ch1", title := "Chapter One",
      sections := [ { id := "s1", title := "One", content := [] },
                    { id := "s2", title := "Two", content := [] } ] } ]

/-- A two-chapter, three-section book used as a concrete navigation input. -/
def chainBook : List BookChapter :=
  [ { id := "chA", title := "Alpha",
      sections := [ { id := "p1", title := "P1", content := [] },
                    { id := "p2", title := "P2", content := [] } ] },
    { id := "chB", title := "Beta",
      sections := [ { id := "p3", title := "P3", content := [] } ] } ]

/-- The playback-relevant state of the `Reader` component
(src/Sidebar.tsx lines 177-180): the `showPlayer`, `isPlaying`, `isPaused`
and `progress` pieces of React state.  `progress` is a percentage, modelled
as a rational. -/
structure PlayerState where
  isPlaying : Bool
  isPaused : Bool
  progress : ℚ
  showPlayer : Bool
deriving Repr, DecidableEq

/-- The operations that mutate the playback state: the user actions
(`handlePlay`, `handleStop`, the player toggle button, the player close
button), the section-change effect, and the host speech-synthesis
callbacks (`onboundary` with its character index and the submitted text's
length, `onend`, and `onerror` with a flag telling whether the cause was
`canceled` or `interrupted`). -/
inductive PlayerEvent where
  | play (sec : BookSection)
  | stop
  | sectionChange
  | togglePlayer
  | closePlayer
  | boundary (charIndex textLen : ℕ)
  | ended
  | error (cancelOrInterrupt : Bool)
deriving Repr, DecidableEq

/-- One transition of the playback controller.
* `play sec` is `handlePlay` (src/Sidebar.tsx lines 224-285): resume when
  paused; pause when playing; otherwise speak the extracted text (the
  source's `if (!text) return` guard is the `extractText sec = ""` case;
  the `cancel()` issued before `speak()` and the utterance object itself
  have no bearing on the modelled state).
* `stop` is `handleStop` (lines 287-295).
* `sectionChange` is the `useEffect` on `section.id` (lines 200-203):
  `handleStop()` followed by `setShowPlayer(false)`.
* `togglePlayer` / `closePlayer` are the header button
  (`setShowPlayer(!showPlayer)`) and the player's X button
  (`handleStop(); setShowPlayer(false)`).
* `boundary` is `utterance.onboundary` (lines 254-262) for a word or
  sentence boundary: `len = text.length > 0 ? text.length : 1`, progress
  becomes `min(charIndex / len * 100, 100)`.
* `ended` is `utterance.onend` (lines 264-269).
* `error c` is `utterance.onerror` (lines 271-279): ignored when the cause
  is a cancellation or interruption, otherwise playing and paused are
  cleared (progress is left untouched). -/
def step (s : PlayerState) : PlayerEvent → PlayerState
  | .play sec =>
      if s.isPaused then { s with isPaused := false, isPlaying := true }
      else if s.isPlaying then { s with isPaused := true, isPlaying := false }
      else if extractText sec = "" then s
      else { s with isPlaying := true, isPaused := false }
  | .stop => { s with isPlaying := false, isPaused := false, progress := 0 }
  | .sectionChange =>
      { isPlaying := false, isPaused := false, progress := 0, showPlayer := false }
  | .togglePlayer => { s with showPlayer := !s.showPlayer }
  | .closePlayer =>
      { isPlaying := false, isPaused := false, progress := 0, showPlayer := false }
  | .boundary charIndex textLen =>
      let len : ℚ := if 0 < textLen then (textLen : ℚ) else 1
      { s with progress := min ((charIndex : ℚ) / len * 100) 100 }
  | .ended => { s with isPlaying := false, isPaused := false, progress := 100 }
  | .error cancelOrInterrupt =>
      if cancelOrInterrupt then s
      else { s with isPlaying := false, isPaused := false }

/-- The state of a freshly mounted `Reader`: not playing, not paused,
progress 0, player hidden. -/
def initPlayerState : PlayerState :=
  { isPlaying := false, isPaused := false, progress := 0, showPlayer := false }

/-- Run a sequence of playback operations from a starting state. -/
def runPlayer (s : PlayerState) (events : List PlayerEvent) : PlayerState :=
  events.foldl step s

/-- The Idle state of the spec: no narration in progress. -/
def IsIdle (s : PlayerState) : Prop := s.isPlaying = false ∧ s.isPaused = false

/-- The Playing state of the spec. -/
def IsPlaying (s : PlayerState) : Prop := s.isPlaying = true ∧ s.isPaused = false

/-- The Paused state of the spec. -/
def IsPaused (s : PlayerState) : Prop := s.isPlaying = false ∧ s.isPaused = true

/-! ### C1: toggling a bookmark twice -/

/-- C1 (counterexample): with bookmark list `["a", "b"]`, toggling `"a"`
twice yields `["b", "a"]`, not the original list `["a", "b"]` — the order
is not restored when the toggled identifier was present at a non-final
position. -/
theorem toggleBookmark_twice_not_order_preserving :
    toggleBookmark (toggleBookmark ["a", "b"] "a") "a" = ["b", "a"] ∧
    toggleBookmark (toggleBookmark ["a", "b"] "a") "a" ≠ ["a", "b"] := by
  constructor <;> decide

/-- C1 (amended): toggling a bookmark twice on the same identifier preserves
the set of bookmarked identifiers, and restores the original list exactly
(contents and order) whenever the identifier was not already bookmarked;
when it was bookmarked at a non-final position it is moved to the end. -/
theorem toggleBookmark_twice :
    ∀ (prev : List String) (sectionId : String),
      (∀ x, x ∈ toggleBookmark (toggleBookmark prev sectionId) sectionId ↔ x ∈ prev) ∧
      (sectionId ∉ prev →
        toggleBookmark (toggleBookmark prev sectionId) sectionId = prev) := by
  intro prev sectionId
  by_cases hmem : sectionId ∈ prev
  · have h1 : toggleBookmark prev sectionId = prev.filter (fun i => i != sectionId) := by
      unfold toggleBookmark; rw [if_pos hmem]
    have hnot : sectionId ∉ prev.filter (fun i => i != sectionId) := by
      simp [List.mem_filter]
    have h2 : toggleBookmark (prev.filter (fun i => i != sectionId)) sectionId =
        prev.filter (fun i => i != sectionId) ++ [sectionId] := by
      unfold toggleBookmark; rw [if_neg hnot]
    refine ⟨?_, fun h => absurd hmem h⟩
    intro x
    rw [h1, h2]
    simp only [List.mem_append, List.mem_filter, List.mem_singleton, bne_iff_ne]
    constructor
    · rintro (⟨hx, _⟩ | rfl)
      · exact hx
      · exact hmem
    · intro hx
      by_cases hxs : x = sectionId
      · exact Or.inr hxs
      · exact Or.inl ⟨hx, hxs⟩
  · have hfilter : prev.filter (fun i => i != sectionId) = prev := by
      apply List.filter_eq_self.mpr
      intro a ha
      simp only [bne_iff_ne, ne_eq, decide_eq_true_eq]
      intro heq; exact hmem (heq ▸ ha)
    have h1 : toggleBookmark prev sectionId = prev ++ [sectionId] := by
      unfold toggleBookmark; rw [if_neg hmem]
    have happ : sectionId ∈ prev ++ [sectionId] := by simp
    have h2 : toggleBookmark (prev ++ [sectionId]) sectionId =
        (prev ++ [sectionId]).filter (fun i => i != sectionId) := by
      unfold toggleBookmark; rw [if_pos happ]
    have hstep : toggleBookmark (toggleBookmark prev sectionId) sectionId = prev := by
      rw [h1, h2, List.filter_append, hfilter]
      simp
    exact ⟨fun x => by rw [hstep], fun _ => hstep⟩

/-- C1 (witness): for the list `["a"]` and the absent identifier `"b"`,
toggling twice restores the original list exactly. -/
theorem toggleBookmark_twice_witness :
    toggleBookmark (toggleBookmark ["a"] "b") "b" = ["a"] :=
  (toggleBookmark_twice ["a"] "b").2 (by decide)

/-! ### C2: narration text of the worked example -/

/-- C2: for the section titled "T" with blocks
`["Intro.", {list:["a","b"]}, {footnote:"skip me"}]`, the extracted
narration text is exactly `"T. \n\nIntro. \na. \nb. \n"`: the footnote is
omitted and each list item is a separate line. -/
theorem extractText_exampleSection :
    extractText exampleSection = "T. \n\nIntro. \na. \nb. \n" := by
  decide

/-! ### C10: quote text is narrated, quote source is render-only -/

/-- The narrated text of a block does not change when its quote source
attribution is erased. -/
lemma blockText_eraseBlockSource (b : Block) :
    blockText (eraseBlockSource b) = blockText b := by
  cases b <;> rfl

/-- Folding the narration accumulator over source-erased blocks yields the
same string as over the original blocks. -/
lemma foldl_blockText_map_erase (l : List Block) (init : String) :
    (l.map eraseBlockSource).foldl (fun text b => text ++ blockText b) init =
      l.foldl (fun text b => text ++ blockText b) init := by
  induction l generalizing init with
  | nil => rfl
  | cons b rest ih =>
      simp only [List.map_cons, List.foldl_cons, blockText_eraseBlockSource]
      exact ih _

/-- C10: the narration text never depends on a quote's source attribution
(erasing all sources leaves `extractText` unchanged), while a quote block
contributes its text followed by `". \n"` (a period, then a newline) to the
narration; the source attribution, when present, appears among the rendered
view's text nodes. -/
theorem extractText_ignores_quote_sources :
    ∀ (s : BookSection) (t src : String),
      extractText (eraseQuoteSources s) = extractText s ∧
      blockText (.quote t (some src)) = t ++ ". \n" ∧
      src ∈ renderBlockTexts (.quote t (some src)) := by
  intro s t src
  refine ⟨?_, rfl, by simp [renderBlockTexts]⟩
  unfold extractText eraseQuoteSources
  exact foldl_blockText_map_erase s.content (s.title ++ ". \n\n")

/-! ### C5: persisted settings defaults -/

/-- C5 (code bug evidence): the theme and bookmark initializers do fall back
to their defaults for absent or unparsable stored values (a bookmark result
other than `[]` can only come from a successful parse), and the font-size
initializer falls back to 2 when the value is absent — but a present,
unparsable font-size value such as "abc" yields NaN (`none`), not the
documented default 2. -/
theorem fontSizeIndexInit_unparsable_is_nan :
    fontSizeIndexInit none = some 2 ∧
    fontSizeIndexInit (some "abc") = none ∧
    fontSizeIndexInit (some "abc") ≠ some 2 ∧
    isDarkModeInit none = false ∧
    isDarkModeInit (some "garbage") = false ∧
    (∀ parse, bookmarksInit parse none = []) ∧
    (∀ parse s, bookmarksInit parse (some s) = [] ∨
      ∃ l, parse s = some l ∧ bookmarksInit parse (some s) = l) := by
  refine ⟨rfl, by decide, by decide, rfl, by decide, fun parse => rfl, ?_⟩
  intro parse s
  unfold bookmarksInit
  by_cases hs : s = ""
  · simp [hs]
  · simp only [if_neg hs]
    cases hp : parse s with
    | none => exact Or.inl rfl
    | some l => exact Or.inr ⟨l, rfl, rfl⟩

/-! ### C8: font-size level stays within bounds -/

/-- C8: starting from any level inside `[0, FONT_SIZES.length - 1]` (in
particular the default 2), any sequence of increment and decrement calls
leaves the font-size level inside `[0, FONT_SIZES.length - 1]`, i.e.
`[0, 4]` for the five configured levels. -/
theorem runFontOps_bounded (start : Int) (ops : List FontOp)
    (h0 : 0 ≤ start) (h1 : start ≤ (FONT_SIZES.length : Int) - 1) :
    0 ≤ runFontOps start ops ∧
      runFontOps start ops ≤ (FONT_SIZES.length : Int) - 1 := by
  have hlen : (FONT_SIZES.length : Int) - 1 = 4 := by decide
  rw [hlen] at h1 ⊢
  induction ops generalizing start with
  | nil => exact ⟨h0, h1⟩
  | cons op rest ih =>
      simp only [runFontOps, List.foldl_cons] at ih ⊢
      cases op with
      | inc =>
          apply ih
          · simp only [applyFontOp, increaseFont, hlen]
            omega
          · simp only [applyFontOp, increaseFont, hlen]
            omega
      | dec =>
          apply ih
          · simp only [applyFontOp, decreaseFont]
            omega
          · simp only [applyFontOp, decreaseFont]
            omega

/-! ### Navigation lemmas -/

/-- `findIndex` returns `-1` exactly when no element satisfies the
predicate (the "not found" direction). -/
lemma jsFindIndex_eq_neg_one {α : Type} (p : α → Bool) (l : List α)
    (h : ∀ a ∈ l, p a = false) : jsFindIndex p l = -1 := by
  induction l with
  | nil => rfl
  | cons a t ih =>
      have ha : p a = false := h a (List.mem_cons_self a t)
      have ht : jsFindIndex p t = -1 := ih fun x hx => h x (List.mem_cons_of_mem a hx)
      simp [jsFindIndex, ha, ht]

/-- On a list whose section identifiers are pairwise distinct, searching for
the identifier of the element at position `i` finds exactly position `i`. -/
lemma jsFindIndex_eq_of_nodup (l : List BookSection)
    (hnd : (l.map BookSection.id).Nodup) (i : ℕ) (x : BookSection)
    (hx : l[i]? = some x) :
    jsFindIndex (fun s => s.id == x.id) l = (i : Int) := by
  induction l generalizing i with
  | nil => simp at hx
  | cons a t ih =>
      rw [List.map_cons, List.nodup_cons] at hnd
      cases i with
      | zero =>
          have hax : a = x := by simpa using hx
          subst hax
          simp [jsFindIndex]
      | succ j =>
          have hxt' : t[j]? = some x := by simpa using hx
          have hxt : x ∈ t := List.getElem?_mem hxt'
          have hne : a.id ≠ x.id := fun hq =>
            hnd.1 (hq ▸ List.mem_map_of_mem BookSection.id hxt)
          have hpa : (a.id == x.id) = false := beq_false_of_ne hne
          have ihj : jsFindIndex (fun s => s.id == x.id) t = (j : Int) :=
            ih hnd.2 j hxt'
          simp only [jsFindIndex, hpa, Bool.false_eq_true, if_false, ihj]
          rw [if_neg (by omega)]
          push_cast
          ring

/-- When no section carries the requested identifier, the chapter scan of
`activeChapterInfo` finds nothing. -/
lemma findInChapters_eq_none (bookData : List BookChapter) (aid : String)
    (hmiss : ∀ s ∈ allSections bookData, s.id ≠ aid) :
    findInChapters bookData aid = none := by
  induction bookData with
  | nil => rfl
  | cons c rest ih =>
      have hmem : ∀ s ∈ c.sections, s ∈ allSections (c :: rest) := by
        intro s hs
        simp only [allSections, List.flatMap_cons, List.mem_append]
        exact Or.inl hs
      have hc : jsFindIndex (fun s => s.id == aid) c.sections = -1 :=
        jsFindIndex_eq_neg_one _ _ fun s hs => beq_false_of_ne (hmiss s (hmem s hs))
      have hrest : findInChapters rest aid = none := by
        apply ih
        intro s hs
        apply hmiss
        simp only [allSections, List.flatMap_cons, List.mem_append]
        exact Or.inr hs
      simp [findInChapters, hc, hrest]

/-! ### C4: lookup-miss fallback -/

/-- C4 (counterexample): in a book whose single chapter has sections
`s1, s2`, requesting the absent identifier "zzz" yields successor `s1` —
the FIRST section of the flattened order (because `findIndex` returns `-1`
and `-1 + 1 = 0`), not the second section `s2` the claim names. -/
theorem navigation_missing_id_next_counterexample :
    (prevNextSection miniBook "zzz").2 = some { id := "s1", title := "One" } ∧
    (prevNextSection miniBook "zzz").2 ≠ some { id := "s2", title := "Two" } := by
  constructor <;> decide

/-- C4 (amended): for a requested identifier that is absent from the content
model (and is not the TOC sentinel), the active-chapter computation falls
back to the first chapter at index 0 with its first section, the
predecessor is the TOC sentinel, and the successor is the FIRST section of
the flattened document order (not the second). -/
theorem navigation_missing_id_fallback (bookData : List BookChapter)
    (activeSectionId : String) (c : BookChapter)
    (hhead : bookData.head? = some c)
    (htoc : activeSectionId ≠ "TOC")
    (hmiss : ∀ s ∈ allSections bookData, s.id ≠ activeSectionId)
    (hne : allSections bookData ≠ []) :
    activeChapterInfo bookData activeSectionId =
      some { title := c.title, index := 0, total := c.sections.length,
             sec := c.sections[0]? } ∧
    (prevNextSection bookData activeSectionId).1 =
      some { id := "TOC", title := "Оглавление" } ∧
    (prevNextSection bookData activeSectionId).2 =
      (allSections bookData).head?.map fun s => { id := s.id, title := s.title } := by
  have hfi : findInChapters bookData activeSectionId = none :=
    findInChapters_eq_none bookData activeSectionId hmiss
  have hidx : jsFindIndex (fun s => s.id == activeSectionId) (allSections bookData) = -1 :=
    jsFindIndex_eq_neg_one _ _ fun s hs => beq_false_of_ne (hmiss s hs)
  obtain ⟨c0, rest, rfl⟩ : ∃ c0 rest, bookData = c0 :: rest := by
    cases bookData with
    | nil => simp at hhead
    | cons c0 rest => exact ⟨c0, rest, rfl⟩
  have hc : c0 = c := by simpa using hhead
  subst hc
  refine ⟨?_, ?_, ?_⟩
  · simp [activeChapterInfo, htoc, hfi]
  · simp only [prevNextSection, if_neg htoc, hidx]
    norm_num
  · simp only [prevNextSection, if_neg htoc, hidx]
    have hlen : (0 : Int) < ((allSections (c0 :: rest)).length : Int) := by
      have := List.length_pos.mpr hne
      omega
    rw [if_pos (by omega)]
    norm_num [List.head?_eq_getElem?]

/-- C4 (witness): with `miniBook` and the absent identifier "zzz", the
fallback is the first chapter at index 0 with section `s1`, the predecessor
is the TOC sentinel, and the successor is the first flattened section. -/
theorem navigation_missing_id_fallback_witness :
    activeChapterInfo miniBook "zzz" =
      some { title := "Chapter One", index := 0, total := 2,
             sec := some { id := "s1", title := "One", content := [] } } ∧
    (prevNextSection miniBook "zzz").1 =
      some { id := "TOC", title := "Оглавление" } ∧
    (prevNextSection miniBook "zzz").2 =
      (allSections miniBook).head?.map fun s => { id := s.id, title := s.title } := by
  have h := navigation_missing_id_fallback miniBook "zzz"
    { id := "ch1", title := "Chapter One",
      sections := [ { id := "s1", title := "One", content := [] },
                    { id := "s2", title := "Two", content := [] } ] }
    (by decide) (by decide) (by decide) (by decide)
  exact h

/-! ### C7: predecessor of successor -/

/-- C7: for a section `x` that sits at a non-boundary position of the
flattened document order of a book with pairwise-distinct section
identifiers, none of which is the TOC sentinel, the computed successor `y`
of `x` exists and the computed predecessor of `y` is `x`. -/
theorem prev_of_next_roundtrip (bookData : List BookChapter)
    (hnd : ((allSections bookData).map BookSection.id).Nodup)
    (htoc : ∀ s ∈ allSections bookData, s.id ≠ "TOC")
    (i : ℕ) (x : BookSection)
    (hx : (allSections bookData)[i]? = some x)
    (h0 : 0 < i) (hlast : i + 1 < (allSections bookData).length) :
    ∃ y : NavTarget, (prevNextSection bookData x.id).2 = some y ∧
      (prevNextSection bookData y.id).1 = some { id := x.id, title := x.title } := by
  set all := allSections bookData with hall
  have hxmem : x ∈ all := List.getElem?_mem hx
  have hxtoc : x.id ≠ "TOC" := htoc x hxmem
  have hidx : jsFindIndex (fun s => s.id == x.id) all = (i : Int) :=
    jsFindIndex_eq_of_nodup all hnd i x hx
  obtain ⟨y, hy⟩ : ∃ y, all[i + 1]? = some y := by
    rw [List.getElem?_eq_getElem hlast]
    exact ⟨_, rfl⟩
  have hymem : y ∈ all := List.getElem?_mem hy
  have hytoc : y.id ≠ "TOC" := htoc y hymem
  have hidy : jsFindIndex (fun s => s.id == y.id) all = ((i + 1 : ℕ) : Int) :=
    jsFindIndex_eq_of_nodup all hnd (i + 1) y hy
  refine ⟨{ id := y.id, title := y.title }, ?_, ?_⟩
  · simp only [prevNextSection, if_neg hxtoc, ← hall, hidx]
    have hlt : (i : Int) < (all.length : Int) - 1 := by omega
    rw [if_pos hlt]
    have htn : ((i : Int) + 1).toNat = i + 1 := by omega
    rw [htn, hy]
    rfl
  · simp only [prevNextSection, if_neg hytoc, ← hall, hidy]
    have hgt : (((i + 1 : ℕ) : Int)) > 0 := by omega
    rw [if_pos hgt]
    have htn : (((i + 1 : ℕ) : Int) - 1).toNat = i := by omega
    rw [htn, hx]
    rfl

/-- C7 (witness): in `chainBook` (flattened sections `p1, p2, p3`), the
successor of `p2` is `p3` and the predecessor of `p3` is `p2`. -/
theorem prev_of_next_roundtrip_witness :
    ∃ y : NavTarget, (prevNextSection chainBook "p2").2 = some y ∧
      (prevNextSection chainBook y.id).1 = some { id := "p2", title := "P2" } :=
  prev_of_next_roundtrip chainBook (by decide) (by decide) 1
    { id := "p2", title := "P2", content := [] }
    (by decide) (by decide) (by decide)

/-- C8 (witness): from the default level 2, the sequence
inc, inc, inc, dec, dec, dec, dec, dec stays within `[0, 4]`. -/
theorem runFontOps_bounded_witness :
    0 ≤ runFontOps 2 [.inc, .inc, .inc, .dec, .dec, .dec, .dec, .dec] ∧
      runFontOps 2 [.inc, .inc, .inc, .dec, .dec, .dec, .dec, .dec] ≤
        (FONT_SIZES.length : Int) - 1 :=
  runFontOps_bounded 2 [.inc, .inc, .inc, .dec, .dec, .dec, .dec, .dec]
    (by decide) (by decide)

/-! ### Playback lemmas -/

/-- Appending block texts onto an accumulator never shortens it. -/
lemma length_le_foldl_blockText (l : List Block) (init : String) :
    init.length ≤ (l.foldl (fun text b => text ++ blockText b) init).length := by
  induction l generalizing init with
  | nil => exact Nat.le_refl _
  | cons b rest ih =>
      simp only [List.foldl_cons]
      calc init.length ≤ (init ++ blockText b).length := by
            rw [String.length_append]; exact Nat.le_add_right _ _
        _ ≤ _ := ih _

/-- The extracted narration text is never empty: it begins with the title
followed by `". \n\n"`, so the source's `if (!text) return` guard in
`handlePlay` never fires. -/
lemma extractText_ne_empty (sec : BookSection) : extractText sec ≠ "" := by
  intro h
  have h1 : (sec.title ++ ". \n\n").length ≤ (extractText sec).length :=
    length_le_foldl_blockText sec.content (sec.title ++ ". \n\n")
  rw [h, String.length_append] at h1
  have h2 : (". \n\n" : String).length = 4 := rfl
  have h3 : ("" : String).length = 0 := rfl
  omega

/-- A single transition keeps the progress percentage inside `[0, 100]`. -/
lemma step_progress_bounds (s : PlayerState) (e : PlayerEvent)
    (h0 : 0 ≤ s.progress) (h1 : s.progress ≤ 100) :
    0 ≤ (step s e).progress ∧ (step s e).progress ≤ 100 := by
  cases e with
  | play sec =>
      simp only [step]
      split
      · exact ⟨h0, h1⟩
      · split
        · exact ⟨h0, h1⟩
        · split
          · exact ⟨h0, h1⟩
          · exact ⟨h0, h1⟩
  | stop => exact ⟨le_refl 0, show (0 : ℚ) ≤ 100 by norm_num⟩
  | sectionChange => exact ⟨le_refl 0, show (0 : ℚ) ≤ 100 by norm_num⟩
  | togglePlayer => exact ⟨h0, h1⟩
  | closePlayer => exact ⟨le_refl 0, show (0 : ℚ) ≤ 100 by norm_num⟩
  | boundary charIndex textLen =>
      refine ⟨le_min ?_ (by norm_num), min_le_right _ _⟩
      apply mul_nonneg _ (by norm_num)
      apply div_nonneg (by positivity)
      split
      · positivity
      · norm_num
  | ended => exact ⟨show (0 : ℚ) ≤ 100 by norm_num, le_refl 100⟩
  | error c =>
      simp only [step]
      split
      · exact ⟨h0, h1⟩
      · exact ⟨h0, h1⟩

/-- Progress stays inside `[0, 100]` along any run. -/
lemma runPlayer_progress_bounds (s : PlayerState) (events : List PlayerEvent)
    (h0 : 0 ≤ s.progress) (h1 : s.progress ≤ 100) :
    0 ≤ (runPlayer s events).progress ∧ (runPlayer s events).progress ≤ 100 := by
  induction events generalizing s with
  | nil => exact ⟨h0, h1⟩
  | cons e rest ih =>
      obtain ⟨g0, g1⟩ := step_progress_bounds s e h0 h1
      simp only [runPlayer, List.foldl_cons]
      exact ih (step s e) g0 g1

/-! ### C3: Idle does not force progress 0 -/

/-- C3 (counterexample): from the initial Idle state, playing the example
section and letting the host completion callback fire reaches a state that
is Idle with progress 100 — so a reachable Idle state need not have
progress 0. -/
theorem idle_with_progress_100_reachable :
    IsIdle (runPlayer initPlayerState [.play exampleSection, .ended]) ∧
    (runPlayer initPlayerState [.play exampleSection, .ended]).progress = 100 ∧
    (runPlayer initPlayerState [.play exampleSection, .ended]).progress ≠ 0 := by
  refine ⟨⟨?_, ?_⟩, ?_, ?_⟩ <;> decide

/-- C3 (amended): in every reachable state the progress percentage lies in
`[0, 100]`; Idle does not imply progress 0 (the completion callback enters
Idle at 100 and a non-cancellation error enters Idle with progress frozen),
but issuing `stop()` from any reachable state does yield Idle with
progress 0. -/
theorem playback_progress_invariant (events : List PlayerEvent) :
    (0 ≤ (runPlayer initPlayerState events).progress ∧
      (runPlayer initPlayerState events).progress ≤ 100) ∧
    IsIdle (step (runPlayer initPlayerState events) .stop) ∧
    (step (runPlayer initPlayerState events) .stop).progress = 0 := by
  refine ⟨runPlayer_progress_bounds initPlayerState events (le_refl 0)
    (show (0 : ℚ) ≤ 100 by norm_num), ⟨rfl, rfl⟩, rfl⟩

/-! ### C6: the play toggle sequence -/

/-- C6: from any Idle state, three consecutive `play()` calls traverse
Playing, then Paused, then Playing again (single-button toggle
semantics). -/
theorem play_toggle_sequence (s : PlayerState) (sec : BookSection)
    (h : IsIdle s) :
    IsPlaying (step s (.play sec)) ∧
    IsPaused (step (step s (.play sec)) (.play sec)) ∧
    IsPlaying (step (step (step s (.play sec)) (.play sec)) (.play sec)) := by
  obtain ⟨hp, hq⟩ := h
  have htext : ¬ extractText sec = "" := extractText_ne_empty sec
  simp [step, hp, hq, htext, IsPlaying, IsPaused]

/-- C6 (witness): from the initial state, three plays of the example
section go Playing, Paused, Playing. -/
theorem play_toggle_sequence_witness :
    IsPlaying (step initPlayerState (.play exampleSection)) ∧
    IsPaused (step (step initPlayerState (.play exampleSection))
      (.play exampleSection)) ∧
    IsPlaying (step (step (step initPlayerState (.play exampleSection))
      (.play exampleSection)) (.play exampleSection)) :=
  play_toggle_sequence initPlayerState exampleSection ⟨rfl, rfl⟩

/-! ### C9: section change stops playback -/

/-- C9: a section change performs `stop()` semantics from every state: the
result is Idle, progress is 0, and the player UI is hidden — no narration
state survives navigation. -/
theorem sectionChange_resets (s : PlayerState) :
    IsIdle (step s .sectionChange) ∧
    (step s .sectionChange).progress = 0 ∧
    (step s .sectionChange).showPlayer = false :=
  ⟨⟨rfl, rfl⟩, rfl, rfl⟩
